import Mathlib

/-!
Verification of the RAG evaluation platform's data model, form logic, API
client configuration and (spec-modelled) orchestration core.

The frontend sources (`EvaluationForm.tsx`, `App.tsx`, `SystemStatus.tsx`,
`api.ts`, `types/evaluation.ts`) are embedded directly.  The backend
orchestrator (metric scorer, aggregator, concurrency gate) is not part of
the available sources, so those components are modelled from the
specification text, as marked in their doc comments.
-/

set_option autoImplicit false

/-- Metric identifiers: the closed four-value set from
`types/evaluation.ts` (`'Accuracy' | 'Hallucination' | 'Authoritativeness'
| 'Usefulness'`). -/
inductive Metric where
  | Accuracy
  | Hallucination
  | Authoritativeness
  | Usefulness
  deriving DecidableEq, Repr

/-- Ratings: `'Great' | 'Good' | 'Fair' | 'Poor'` from `types/evaluation.ts`. -/
inductive Rating where
  | Great
  | Good
  | Fair
  | Poor
  deriving DecidableEq, Repr

/-- Badges: `'Platinum' | 'Gold' | 'Silver' | 'Bronze'` from `types/evaluation.ts`. -/
inductive Badge where
  | Platinum
  | Gold
  | Silver
  | Bronze
  deriving DecidableEq, Repr

/-- The `MetricEvaluation` interface from `types/evaluation.ts`.  The score
field has type `3 | 2 | 1 | 0`, embedded as `Fin 4`; note that the interface
itself puts no relation between `rating`, `score` and `badge`. -/
structure MetricEvaluation where
  metric : Metric
  rating : Rating
  score : Fin 4
  badge : Badge
  reasoning : String
  deriving DecidableEq, Repr

/-- The `OverallEvaluation` interface from `types/evaluation.ts`; the
TypeScript `number` for `overall_score` is embedded as `ℚ`. -/
structure OverallEvaluation where
  overall_rating : Rating
  overall_score : ℚ
  overall_badge : Badge
  summary : String
  deriving DecidableEq, Repr

/-- The `EvaluationResponse` interface from `types/evaluation.ts`: every
per-metric field is optional (`accuracy?: MetricEvaluation` and so on). -/
structure EvaluationResponse where
  accuracy : Option MetricEvaluation
  hallucination : Option MetricEvaluation
  authoritativeness : Option MetricEvaluation
  usefulness : Option MetricEvaluation
  overall : OverallEvaluation
  evaluation_id : String
  processing_time : ℚ
  deriving DecidableEq, Repr

/-- Uploaded-file metadata, from the `uploaded_file` member of
`EvaluationRequest` in `types/evaluation.ts` (the `content` string is carried
separately where needed). -/
structure FileMeta where
  name : String
  ftype : String
  size : Nat
  deriving DecidableEq, Repr

/-- The `EvaluationRequest` interface from `types/evaluation.ts`. -/
structure EvaluationRequest where
  model : List String
  eval_metrices : List Metric
  user_query : String
  ai_response : String
  chunk_1 : String
  chunk_2 : String
  chunk_3 : String
  chunk_4 : String
  chunk_5 : String
  uploaded_file : Option (FileMeta × String)
  deriving DecidableEq, Repr

/-! ### Canonical rating/score/badge mapping (spec-modelled scorer) -/

/-- Rating derived from a 0–3 score per the fixed table
(3↔Great, 2↔Good, 1↔Fair, 0↔Poor), as given in the repository README's
rating system section. -/
def ratingOfScore : Fin 4 → Rating
  | 3 => .Great
  | 2 => .Good
  | 1 => .Fair
  | 0 => .Poor

/-- Badge derived 1:1 from a 0–3 score per the fixed table
(3↔Platinum, 2↔Gold, 1↔Silver, 0↔Bronze). -/
def badgeOfScore : Fin 4 → Badge
  | 3 => .Platinum
  | 2 => .Gold
  | 1 => .Silver
  | 0 => .Bronze

/-- Modelled from the spec: the Metric Scorer (§4.3) is not under the
available sources; per the spec it normalizes a validated ordinal signal in
{0,1,2,3} into the canonical (rating, score, badge) triple. -/
def scoreMetric (m : Metric) (s : Fin 4) (reasoning : String) : MetricEvaluation :=
  { metric := m
    rating := ratingOfScore s
    score := s
    badge := badgeOfScore s
    reasoning := reasoning }

/-- A `MetricEvaluation` is canonical when its (score, rating, badge) triple
is one of the four rows of the fixed mapping table. -/
def isCanonicalMetric (r : MetricEvaluation) : Bool :=
  (r.score = 3 && r.rating = Rating.Great && r.badge = Badge.Platinum) ||
  (r.score = 2 && r.rating = Rating.Good && r.badge = Badge.Gold) ||
  (r.score = 1 && r.rating = Rating.Fair && r.badge = Badge.Silver) ||
  (r.score = 0 && r.rating = Rating.Poor && r.badge = Badge.Bronze)

/-- A value of the `MetricEvaluation` type whose fields each lie in their
declared unions but whose combination is outside the four canonical rows:
the interface in `types/evaluation.ts` does not rule it out. -/
def inconsistentMetricValue : MetricEvaluation :=
  { metric := .Accuracy
    rating := .Poor
    score := 3
    badge := .Bronze
    reasoning := "" }

/-! ### API client configuration (`services/api.ts`) -/

/-- Configuration of the axios instance created in `services/api.ts`. -/
structure AxiosConfig where
  baseURL : String
  timeout : Nat
  deriving DecidableEq, Repr

/-- The axios instance from `services/api.ts`: base URL
`http://localhost:9777` and a 60000 ms timeout. -/
def api : AxiosConfig :=
  { baseURL := "http://localhost:9777"
    timeout := 60000 }

/-- Default request timeout in seconds (`EVALUATION_TIMEOUT=300` in the
repository README's environment configuration). -/
def defaultEvaluationTimeoutSeconds : Nat := 300

/-! ### Claims C1 and C7 -/

/-- C1 counterexample: the claim says no rating/score/badge combination
outside the four canonical tuples is representable, yet
`inconsistentMetricValue` is a well-typed `MetricEvaluation` with score 3,
rating Poor and badge Bronze. -/
theorem c1_inconsistent_value_representable :
    inconsistentMetricValue.score = 3 ∧
    inconsistentMetricValue.rating = Rating.Poor ∧
    inconsistentMetricValue.badge = Badge.Bronze ∧
    isCanonicalMetric inconsistentMetricValue = false := by
  decide

/-- C1 (amended): every `MetricEvaluation` produced by the (spec-modelled)
Metric Scorer has a canonical (score, rating, badge) triple — one of
3/Great/Platinum, 2/Good/Gold, 1/Fair/Silver, 0/Poor/Bronze — though the
`MetricEvaluation` type itself does not make other combinations
unrepresentable. -/
theorem c1_scorer_always_canonical (m : Metric) (s : Fin 4) (reasoning : String) :
    isCanonicalMetric (scoreMetric m s reasoning) = true := by
  fin_cases s <;> cases m <;> rfl

/-- C7 counterexample: the axios client in `services/api.ts` is configured
with a 60000 ms timeout, so the evaluate call does not wait the 300 seconds
(300000 ms) the claim asserts. -/
theorem c7_client_timeout_is_60s_not_300s :
    api.timeout = 60000 ∧ ¬ (defaultEvaluationTimeoutSeconds * 1000 ≤ api.timeout) := by
  decide

/-- C7 (amended): the synchronous evaluate request made by the API client
aborts after the axios-configured 60-second (60000 ms) timeout, which is
shorter than the backend's configured default request timeout of 300
seconds. -/
theorem c7_client_timeout_60s :
    api.timeout = 60 * 1000 ∧ api.timeout < defaultEvaluationTimeoutSeconds * 1000 := by
  decide

/-! ### Aggregator and orchestration (spec-modelled, §4.5–§4.6) -/

/-- Request-level error taxonomy entries needed by the aggregation claims
(spec §7). -/
inductive EvalError where
  | noMetricsCompleted
  deriving DecidableEq, Repr

/-- Arithmetic mean of a list of 0–3 scores, as a rational. -/
def meanScore (S : List (Fin 4)) : ℚ :=
  (S.map (fun s => ((s.val : ℚ)))).sum / S.length

/-- Overall rating bucket from the mean score (spec §4.5: ≥ 2.5 Great,
≥ 1.5 Good, ≥ 0.5 Fair, otherwise Poor). -/
def bucketRating (m : ℚ) : Rating :=
  if 5/2 ≤ m then .Great
  else if 3/2 ≤ m then .Good
  else if 1/2 ≤ m then .Fair
  else .Poor

/-- Overall badge bucket from the mean score (spec §4.5). -/
def bucketBadge (m : ℚ) : Badge :=
  if 5/2 ≤ m then .Platinum
  else if 3/2 ≤ m then .Gold
  else if 1/2 ≤ m then .Silver
  else .Bronze

/-- Modelled from the spec: the Aggregator (§4.5) is not under the available
sources.  Per the spec it takes the per-metric outcomes (`none` marks a
failed or timed-out metric), keeps only the successfully scored ones, fails
with `NoMetricsCompleted` when none remain, and otherwise returns the mean
of the completed scores with the threshold-bucketed rating and badge.
Summary text composition is not modelled. -/
def aggregate (results : List (Option (Fin 4))) : Except EvalError OverallEvaluation :=
  if (results.filterMap id).isEmpty then
    .error .noMetricsCompleted
  else
    .ok { overall_rating := bucketRating (meanScore (results.filterMap id))
          overall_score := meanScore (results.filterMap id)
          overall_badge := bucketBadge (meanScore (results.filterMap id))
          summary := "" }

/-- Per-metric response field: present exactly when the metric was requested
and its evaluator produced a score (spec §3, `EvaluationResponse`). -/
def resultFor (requested : List Metric) (verdicts : Metric → Option (Fin 4))
    (m : Metric) : Option MetricEvaluation :=
  if m ∈ requested then (verdicts m).map (fun s => scoreMetric m s "") else none

/-- Modelled from the spec: the Orchestrator's fan-out/collect/aggregate path
(§4.6) is not under the available sources.  `verdicts` abstracts each
evaluator's terminal outcome (`none` = failure or timeout); duplicates in the
requested list are collapsed before aggregation. -/
def orchestrate (requested : List Metric) (verdicts : Metric → Option (Fin 4)) :
    Except EvalError EvaluationResponse :=
  match aggregate ((requested.dedup).map verdicts) with
  | .error e => .error e
  | .ok overall =>
      .ok { accuracy := resultFor requested verdicts .Accuracy
            hallucination := resultFor requested verdicts .Hallucination
            authoritativeness := resultFor requested verdicts .Authoritativeness
            usefulness := resultFor requested verdicts .Usefulness
            overall := overall
            evaluation_id := "eval"
            processing_time := 0 }

/-- The per-metric entries the results view renders: the list built in
`ResultsDisplay` (`SystemStatus.tsx` bundle) filtered to the fields that are
present. -/
def displayedMetrics (results : EvaluationResponse) : List (String × Option MetricEvaluation) :=
  ([("accuracy", results.accuracy),
    ("hallucination", results.hallucination),
    ("authoritativeness", results.authoritativeness),
    ("usefulness", results.usefulness)]).filter (fun p => p.2.isSome)

/-! ### Bucket characterizations -/

theorem bucketRating_great_iff (m : ℚ) : bucketRating m = .Great ↔ 5/2 ≤ m := by
  unfold bucketRating
  split_ifs with h1 h2 h3
  · exact iff_of_true rfl h1
  · exact iff_of_false (by simp) h1
  · exact iff_of_false (by simp) h1
  · exact iff_of_false (by simp) h1

theorem bucketRating_good_iff (m : ℚ) : bucketRating m = .Good ↔ 3/2 ≤ m ∧ m < 5/2 := by
  unfold bucketRating
  split_ifs with h1 h2 h3
  · exact iff_of_false (by simp) (fun hc => absurd h1 (not_le.mpr hc.2))
  · exact iff_of_true rfl ⟨h2, not_le.mp h1⟩
  · exact iff_of_false (by simp) (fun hc => h2 hc.1)
  · exact iff_of_false (by simp) (fun hc => h2 hc.1)

theorem bucketRating_fair_iff (m : ℚ) : bucketRating m = .Fair ↔ 1/2 ≤ m ∧ m < 3/2 := by
  unfold bucketRating
  split_ifs with h1 h2 h3
  · exact iff_of_false (by simp) (fun hc => absurd hc.2 (not_lt.mpr (le_trans (by norm_num) h1)))
  · exact iff_of_false (by simp) (fun hc => absurd h2 (not_le.mpr hc.2))
  · exact iff_of_true rfl ⟨h3, not_le.mp h2⟩
  · exact iff_of_false (by simp) (fun hc => h3 hc.1)

theorem bucketRating_poor_iff (m : ℚ) : bucketRating m = .Poor ↔ m < 1/2 := by
  unfold bucketRating
  split_ifs with h1 h2 h3
  · exact iff_of_false (by simp) (not_lt.mpr (le_trans (by norm_num) h1))
  · exact iff_of_false (by simp) (not_lt.mpr (le_trans (by norm_num) h2))
  · exact iff_of_false (by simp) (not_lt.mpr h3)
  · exact iff_of_true rfl (not_le.mp h3)

theorem bucketBadge_platinum_iff (m : ℚ) : bucketBadge m = .Platinum ↔ 5/2 ≤ m := by
  unfold bucketBadge
  split_ifs with h1 h2 h3
  · exact iff_of_true rfl h1
  · exact iff_of_false (by simp) h1
  · exact iff_of_false (by simp) h1
  · exact iff_of_false (by simp) h1

theorem bucketBadge_gold_iff (m : ℚ) : bucketBadge m = .Gold ↔ 3/2 ≤ m ∧ m < 5/2 := by
  unfold bucketBadge
  split_ifs with h1 h2 h3
  · exact iff_of_false (by simp) (fun hc => absurd h1 (not_le.mpr hc.2))
  · exact iff_of_true rfl ⟨h2, not_le.mp h1⟩
  · exact iff_of_false (by simp) (fun hc => h2 hc.1)
  · exact iff_of_false (by simp) (fun hc => h2 hc.1)

theorem bucketBadge_silver_iff (m : ℚ) : bucketBadge m = .Silver ↔ 1/2 ≤ m ∧ m < 3/2 := by
  unfold bucketBadge
  split_ifs with h1 h2 h3
  · exact iff_of_false (by simp) (fun hc => absurd hc.2 (not_lt.mpr (le_trans (by norm_num) h1)))
  · exact iff_of_false (by simp) (fun hc => absurd h2 (not_le.mpr hc.2))
  · exact iff_of_true rfl ⟨h3, not_le.mp h2⟩
  · exact iff_of_false (by simp) (fun hc => h3 hc.1)

theorem bucketBadge_bronze_iff (m : ℚ) : bucketBadge m = .Bronze ↔ m < 1/2 := by
  unfold bucketBadge
  split_ifs with h1 h2 h3
  · exact iff_of_false (by simp) (not_lt.mpr (le_trans (by norm_num) h1))
  · exact iff_of_false (by simp) (not_lt.mpr (le_trans (by norm_num) h2))
  · exact iff_of_false (by simp) (not_lt.mpr h3)
  · exact iff_of_true rfl (not_le.mp h3)

/-! ### Claim C2 -/

/-- C2: for every outcome list whose completed subset S is non-empty,
aggregation returns the exact arithmetic mean of the scores over S only
(failures appear in neither numerator nor denominator), and the overall
rating/badge are exactly the threshold buckets 2.5/1.5/0.5. -/
theorem c2_aggregation_mean_and_buckets (results : List (Option (Fin 4)))
    (o : OverallEvaluation) (h : aggregate results = .ok o) :
    o.overall_score =
      ((results.filterMap id).map (fun s => ((s.val : ℚ)))).sum / (results.filterMap id).length ∧
    (o.overall_rating = .Great ∧ o.overall_badge = .Platinum ↔ 5/2 ≤ o.overall_score) ∧
    (o.overall_rating = .Good ∧ o.overall_badge = .Gold ↔ 3/2 ≤ o.overall_score ∧ o.overall_score < 5/2) ∧
    (o.overall_rating = .Fair ∧ o.overall_badge = .Silver ↔ 1/2 ≤ o.overall_score ∧ o.overall_score < 3/2) ∧
    (o.overall_rating = .Poor ∧ o.overall_badge = .Bronze ↔ o.overall_score < 1/2) := by
  unfold aggregate at h
  by_cases he : (results.filterMap id).isEmpty
  · rw [if_pos he] at h
    exact Except.noConfusion h
  · rw [if_neg he] at h
    injection h with h
    subst h
    refine ⟨rfl, ?_, ?_, ?_, ?_⟩
    · exact ⟨fun hc => (bucketRating_great_iff _).mp hc.1,
        fun hm => ⟨(bucketRating_great_iff _).mpr hm, (bucketBadge_platinum_iff _).mpr hm⟩⟩
    · exact ⟨fun hc => (bucketRating_good_iff _).mp hc.1,
        fun hm => ⟨(bucketRating_good_iff _).mpr hm, (bucketBadge_gold_iff _).mpr hm⟩⟩
    · exact ⟨fun hc => (bucketRating_fair_iff _).mp hc.1,
        fun hm => ⟨(bucketRating_fair_iff _).mpr hm, (bucketBadge_silver_iff _).mpr hm⟩⟩
    · exact ⟨fun hc => (bucketRating_poor_iff _).mp hc.1,
        fun hm => ⟨(bucketRating_poor_iff _).mpr hm, (bucketBadge_bronze_iff _).mpr hm⟩⟩

/-- The overall evaluation produced on the worked example of C2: one failed
metric and completed scores {3, 3, 2}. -/
def exampleOverall : OverallEvaluation :=
  { overall_rating := .Great
    overall_score := 8/3
    overall_badge := .Platinum
    summary := "" }

/-- Witness for C2 at the spec's worked example: with one failure and
completed scores {3,3,2} the aggregated mean is 8/3 ≈ 2.667, not the sum
divided by 4. -/
theorem c2_aggregation_witness :
    exampleOverall.overall_score =
      ((([some 3, some 3, some 2, none] : List (Option (Fin 4))).filterMap id).map
        (fun s => ((s.val : ℚ)))).sum /
      (([some 3, some 3, some 2, none] : List (Option (Fin 4))).filterMap id).length ∧
    exampleOverall.overall_score = 8/3 := by
  have hv3 : (((3 : Fin 4).val : ℚ)) = 3 := rfl
  have hv2 : (((2 : Fin 4).val : ℚ)) = 2 := rfl
  have hmean :
      meanScore (([some 3, some 3, some 2, none] : List (Option (Fin 4))).filterMap id) = 8/3 := by
    norm_num [meanScore, List.filterMap, hv3, hv2]
  have hrat : bucketRating ((8:ℚ)/3) = Rating.Great := by
    unfold bucketRating
    rw [if_pos (by norm_num)]
  have hbad : bucketBadge ((8:ℚ)/3) = Badge.Platinum := by
    unfold bucketBadge
    rw [if_pos (by norm_num)]
  have hok : aggregate [some 3, some 3, some 2, none] = .ok exampleOverall := by
    unfold aggregate
    rw [if_neg (by simp)]
    rw [hmean, hrat, hbad]
    rfl
  have h := c2_aggregation_mean_and_buckets
    [some 3, some 3, some 2, none] exampleOverall hok
  exact ⟨h.1, rfl⟩

/-! ### Claim C5 -/

/-- Evaluator outcomes in the C5 scenario: only the Accuracy evaluator runs
and it returns score 3. -/
def scenarioVerdicts : Metric → Option (Fin 4)
  | .Accuracy => some 3
  | _ => none

/-- The response the modelled orchestrator produces in the C5 scenario. -/
def scenarioResponse : EvaluationResponse :=
  { accuracy := some (scoreMetric .Accuracy 3 "")
    hallucination := none
    authoritativeness := none
    usefulness := none
    overall := { overall_rating := .Great
                 overall_score := 3
                 overall_badge := .Platinum
                 summary := "" }
    evaluation_id := "eval"
    processing_time := 0 }

/-- C5: a request naming only Accuracy whose evaluator returns score 3
yields accuracy score 3 with badge Platinum, overall score 3.0 with badge
Platinum, absent hallucination/authoritativeness/usefulness fields, and the
results view renders exactly the one present per-metric field. -/
theorem c5_single_accuracy_scenario :
    orchestrate [.Accuracy] scenarioVerdicts = .ok scenarioResponse ∧
    scenarioResponse.accuracy = some (scoreMetric .Accuracy 3 "") ∧
    (scoreMetric .Accuracy 3 "").score = 3 ∧
    (scoreMetric .Accuracy 3 "").badge = .Platinum ∧
    scenarioResponse.overall.overall_score = 3 ∧
    scenarioResponse.overall.overall_badge = .Platinum ∧
    scenarioResponse.hallucination = none ∧
    scenarioResponse.authoritativeness = none ∧
    scenarioResponse.usefulness = none ∧
    displayedMetrics scenarioResponse = [("accuracy", some (scoreMetric .Accuracy 3 ""))] := by
  refine ⟨?_, rfl, rfl, rfl, rfl, rfl, rfl, rfl, rfl, rfl⟩
  have hv3 : (((3 : Fin 4).val : ℚ)) = 3 := rfl
  have hmean :
      meanScore ((([Metric.Accuracy].dedup).map scenarioVerdicts).filterMap id) = 3 := by
    norm_num [meanScore, List.filterMap, List.dedup, scenarioVerdicts, hv3]
  have hok :
      aggregate (([Metric.Accuracy].dedup).map scenarioVerdicts) = .ok scenarioResponse.overall := by
    unfold aggregate
    rw [if_neg (by simp [List.dedup, scenarioVerdicts])]
    rw [hmean]
    unfold bucketRating bucketBadge
    rw [if_pos (by norm_num), if_pos (by norm_num)]
    rfl
  unfold orchestrate
  rw [hok]
  rfl

/-! ### Concurrency Gate (spec-modelled, §4.4 and §5) -/

/-- State of the admission-control gate: the requests currently admitted
(in flight) and the FIFO wait queue, by request identifier. -/
structure GateState where
  admitted : List Nat
  queue : List Nat
  deriving DecidableEq, Repr

/-- Events acting on the gate: a request arrives, an admitted request
completes (releasing its permit), or a queued request's outer deadline
expires. -/
inductive GateEvent where
  | arrive (r : Nat)
  | complete (r : Nat)
  | timeoutQueued (r : Nat)
  deriving DecidableEq, Repr

/-- Observable outcome of one gate step. -/
inductive GateOutcome where
  | admittedNow
  | queuedDelay
  | released
  | promoted
  | overloadedError
  | noop
  deriving DecidableEq, Repr

/-- Modelled from the spec: the Concurrency Gate (§4.4) is not under the
available sources.  Per the spec, at most `ceiling` requests hold permits at
once; an arrival beyond the ceiling is appended to a FIFO queue (a queuing
delay, never a rejection); a release hands the freed permit to the queue
head; a queued request whose outer deadline expires fails with
`Overloaded`. -/
def gateStep (ceiling : Nat) (s : GateState) : GateEvent → GateState × GateOutcome
  | .arrive r =>
      if s.admitted.length < ceiling ∧ s.queue = [] then
        ({ s with admitted := s.admitted ++ [r] }, .admittedNow)
      else
        ({ s with queue := s.queue ++ [r] }, .queuedDelay)
  | .complete r =>
      match s.queue with
      | [] => ({ admitted := s.admitted.filter (fun x => x ≠ r), queue := [] }, .released)
      | q :: rest =>
          if (s.admitted.filter (fun x => x ≠ r)).length < ceiling then
            ({ admitted := s.admitted.filter (fun x => x ≠ r) ++ [q], queue := rest }, .promoted)
          else
            ({ admitted := s.admitted.filter (fun x => x ≠ r), queue := q :: rest }, .released)
  | .timeoutQueued r =>
      if r ∈ s.queue then ({ s with queue := s.queue.erase r }, .overloadedError)
      else (s, .noop)

/-- The gate starts with no admitted requests and an empty queue. -/
def gateInit : GateState := { admitted := [], queue := [] }

/-- Run the gate from its initial state over a sequence of events. -/
def gateRun (ceiling : Nat) (events : List GateEvent) : GateState :=
  events.foldl (fun s e => (gateStep ceiling s e).1) gateInit

theorem gateStep_preserves_ceiling (ceiling : Nat) (s : GateState) (e : GateEvent)
    (h : s.admitted.length ≤ ceiling) :
    ((gateStep ceiling s e).1).admitted.length ≤ ceiling := by
  cases e with
  | arrive r =>
      by_cases hc : s.admitted.length < ceiling ∧ s.queue = []
      · simp only [gateStep, if_pos hc, List.length_append, List.length_singleton]
        omega
      · simp only [gateStep, if_neg hc]
        exact h
  | complete r =>
      have hf : (s.admitted.filter (fun x => x ≠ r)).length ≤ s.admitted.length :=
        List.length_filter_le _ _
      cases hq : s.queue with
      | nil => simp only [gateStep, hq]; omega
      | cons q rest =>
          by_cases hc : (s.admitted.filter (fun x => x ≠ r)).length < ceiling
          · simp only [gateStep, hq, if_pos hc, List.length_append, List.length_singleton]
            omega
          · simp only [gateStep, hq, if_neg hc]
            omega
  | timeoutQueued r =>
      by_cases hc : r ∈ s.queue
      · simp only [gateStep, if_pos hc]
        exact h
      · simp only [gateStep, if_neg hc]
        exact h

theorem gateRun_ceiling (ceiling : Nat) (events : List GateEvent) :
    (gateRun ceiling events).admitted.length ≤ ceiling := by
  have key : ∀ (evs : List GateEvent) (s : GateState), s.admitted.length ≤ ceiling →
      (evs.foldl (fun s e => (gateStep ceiling s e).1) s).admitted.length ≤ ceiling := by
    intro evs
    induction evs with
    | nil => intro s h; exact h
    | cons e rest ih =>
        intro s h
        exact ih _ (gateStep_preserves_ceiling ceiling s e h)
  exact key events gateInit (by simp [gateInit])

/-! ### Claim C3 -/

/-- C3: the gate never holds more than the ceiling of simultaneously
admitted requests in any reachable state; an arrival while the ceiling is
saturated is appended to the FIFO queue with a queuing-delay outcome, never
a rejection; a release promotes the queue head; and a queued request whose
outer deadline expires fails with the Overloaded outcome. -/
theorem c3_gate_ceiling_fifo_overloaded :
    (∀ (ceiling : Nat) (events : List GateEvent),
      (gateRun ceiling events).admitted.length ≤ ceiling) ∧
    (∀ (ceiling : Nat) (s : GateState) (r : Nat), ceiling ≤ s.admitted.length →
      gateStep ceiling s (.arrive r) = ({ s with queue := s.queue ++ [r] }, .queuedDelay)) ∧
    (∀ (ceiling : Nat) (s : GateState) (r q : Nat) (rest : List Nat),
      s.queue = q :: rest → (s.admitted.filter (fun x => x ≠ r)).length < ceiling →
      gateStep ceiling s (.complete r) =
        ({ admitted := s.admitted.filter (fun x => x ≠ r) ++ [q], queue := rest }, .promoted)) ∧
    (∀ (ceiling : Nat) (s : GateState) (r : Nat), r ∈ s.queue →
      gateStep ceiling s (.timeoutQueued r) =
        ({ s with queue := s.queue.erase r }, .overloadedError)) := by
  refine ⟨gateRun_ceiling, ?_, ?_, ?_⟩
  · intro ceiling s r h
    have hc : ¬ (s.admitted.length < ceiling ∧ s.queue = []) := by
      intro hc
      omega
    simp only [gateStep, if_neg hc]
  · intro ceiling s r q rest hq hlt
    simp only [gateStep, hq, if_pos hlt]
  · intro ceiling s r h
    simp only [gateStep, if_pos h]

/-- Witness for C3: with ceiling 5 and five admitted requests, a sixth
arrival is queued (not rejected), and timing out that queued request yields
the Overloaded outcome. -/
theorem c3_gate_witness :
    gateStep 5 { admitted := [1, 2, 3, 4, 5], queue := [] } (.arrive 6) =
      ({ admitted := [1, 2, 3, 4, 5], queue := [6] }, .queuedDelay) ∧
    gateStep 5 { admitted := [1, 2, 3, 4, 5], queue := [6] } (.timeoutQueued 6) =
      ({ admitted := [1, 2, 3, 4, 5], queue := [] }, .overloadedError) := by
  refine ⟨?_, ?_⟩
  · exact c3_gate_ceiling_fifo_overloaded.2.1 5 { admitted := [1, 2, 3, 4, 5], queue := [] } 6
      (by decide)
  · exact c3_gate_ceiling_fifo_overloaded.2.2.2 5 { admitted := [1, 2, 3, 4, 5], queue := [6] } 6
      (by decide)

/-! ### Evaluation form state and validation (`EvaluationForm.tsx`) -/

/-- Characters removed by JavaScript `trim()` as exercised by the form
inputs (space, tab, carriage return, line feed). -/
def isTrimmedSpace (c : Char) : Bool :=
  c = ' ' || c = '\t' || c = '\r' || c = '\n'

/-- Leading and trailing whitespace removal over the character list. -/
def trimChars (cs : List Char) : List Char :=
  ((cs.dropWhile isTrimmedSpace).reverse.dropWhile isTrimmedSpace).reverse

/-- The JavaScript `String.prototype.trim` used by `EvaluationForm.tsx`,
embedded as a structurally recursive function on the character list. -/
def jsTrim (s : String) : String :=
  String.mk (trimChars s.data)

/-- The `formData` state of `EvaluationForm.tsx` (the request fields edited
by the form, without the uploaded file). -/
structure FormData where
  model : List String
  eval_metrices : List Metric
  user_query : String
  ai_response : String
  chunk_1 : String
  chunk_2 : String
  chunk_3 : String
  chunk_4 : String
  chunk_5 : String
  deriving DecidableEq, Repr

/-- The initial `useState` value of `formData` in `EvaluationForm.tsx`. -/
def initialFormData : FormData :=
  { model := ["gpt-4o-mini"]
    eval_metrices := [.Accuracy, .Hallucination, .Authoritativeness, .Usefulness]
    user_query := ""
    ai_response := ""
    chunk_1 := ""
    chunk_2 := ""
    chunk_3 := ""
    chunk_4 := ""
    chunk_5 := "" }

/-- The `newErrors` map built by `validateForm` in `EvaluationForm.tsx`:
one (field, message) entry per failed check. -/
def validationErrors (f : FormData) : List (String × String) :=
  (if jsTrim f.user_query = "" then [("user_query", "User query is required")] else []) ++
  (if jsTrim f.ai_response = "" then [("ai_response", "AI response is required")] else []) ++
  (if f.eval_metrices.length = 0 then
    [("eval_metrices", "At least one metric must be selected")] else [])

/-- The `validateForm` function of `EvaluationForm.tsx`: true exactly when
`newErrors` has no keys. -/
def validateForm (f : FormData) : Bool :=
  (validationErrors f).isEmpty

/-- The request object `handleSubmit` builds from `formData` and the
uploaded file (the file content sent is `formData.ai_response`). -/
def buildRequest (f : FormData) (uploadedFile : Option FileMeta) : EvaluationRequest :=
  { model := f.model
    eval_metrices := f.eval_metrices
    user_query := f.user_query
    ai_response := f.ai_response
    chunk_1 := f.chunk_1
    chunk_2 := f.chunk_2
    chunk_3 := f.chunk_3
    chunk_4 := f.chunk_4
    chunk_5 := f.chunk_5
    uploaded_file := uploadedFile.map (fun meta => (meta, f.ai_response)) }

/-- The `handleSubmit` handler of `EvaluationForm.tsx`: `some request`
exactly when `onSubmit` is invoked, `none` when validation rejects. -/
def handleSubmit (f : FormData) (uploadedFile : Option FileMeta) : Option EvaluationRequest :=
  if validateForm f then some (buildRequest f uploadedFile) else none

theorem validateForm_iff (f : FormData) :
    validateForm f = true ↔
      (jsTrim f.user_query ≠ "" ∧ jsTrim f.ai_response ≠ "" ∧ f.eval_metrices ≠ []) := by
  unfold validateForm validationErrors
  split_ifs with h1 h2 h3 <;>
    simp_all [List.isEmpty_iff, List.length_eq_zero]

/-! ### Claim C4 -/

/-- C4: an `EvaluationRequest` is submitted (`onSubmit` invoked) iff
validation passes — `user_query` and `ai_response` non-empty after
trimming and at least one metric selected; a form violating any of these
produces a field error and no request is sent. -/
theorem c4_submit_iff_validation (f : FormData) (uploadedFile : Option FileMeta) :
    ((handleSubmit f uploadedFile).isSome ↔
      (jsTrim f.user_query ≠ "" ∧ jsTrim f.ai_response ≠ "" ∧ f.eval_metrices ≠ [])) ∧
    (handleSubmit f uploadedFile = none → validationErrors f ≠ []) := by
  refine ⟨?_, ?_⟩
  · unfold handleSubmit
    by_cases hb : validateForm f = true
    · rw [if_pos hb]
      simp only [Option.isSome_some, true_iff]
      exact (validateForm_iff f).mp hb
    · rw [if_neg hb]
      simp only [Option.isSome_none, Bool.false_eq_true, false_iff]
      exact fun hr => hb ((validateForm_iff f).mpr hr)
  · intro hnone hne
    have hb : validateForm f = true := by
      unfold validateForm
      rw [hne]
      rfl
    unfold handleSubmit at hnone
    rw [if_pos hb] at hnone
    exact Option.noConfusion hnone

/-- Witness for C4: the initial form (empty query and response) is rejected
with field errors and never submitted, while a filled form with one metric
selected is submitted. -/
theorem c4_submit_witness :
    validationErrors initialFormData ≠ [] ∧
    (handleSubmit initialFormData none).isSome = false ∧
    (handleSubmit { initialFormData with user_query := "q", ai_response := "a" } none).isSome = true := by
  have h0 := c4_submit_iff_validation initialFormData none
  have h1 := c4_submit_iff_validation { initialFormData with user_query := "q", ai_response := "a" } none
  refine ⟨h0.2 (by decide), ?_, ?_⟩
  · by_cases hs : (handleSubmit initialFormData none).isSome = true
    · exact absurd ((h0.1).mp hs).1 (by decide)
    · simpa using hs
  · exact (h1.1).mpr ⟨by decide, by decide, by decide⟩

/-! ### Claim C8 -/

/-- The `handleMetricToggle` logic of `EvaluationForm.tsx`: remove the
metric if present (via `filter`), append it otherwise. -/
def handleMetricToggle (metric : Metric) (currentMetrics : List Metric) : List Metric :=
  if metric ∈ currentMetrics then currentMetrics.filter (fun m => m ≠ metric)
  else currentMetrics ++ [metric]

/-- Apply a sequence of metric toggles to a starting selection. -/
def applyToggles (toggles : List Metric) (start : List Metric) : List Metric :=
  toggles.foldl (fun cur m => handleMetricToggle m cur) start

theorem handleMetricToggle_nodup (metric : Metric) (l : List Metric) (h : l.Nodup) :
    (handleMetricToggle metric l).Nodup := by
  unfold handleMetricToggle
  by_cases hm : metric ∈ l
  · rw [if_pos hm]
    exact h.filter _
  · rw [if_neg hm]
    refine List.Nodup.append h (List.nodup_singleton metric) ?_
    intro a ha hb
    rw [List.mem_singleton] at hb
    subst hb
    exact hm ha

theorem applyToggles_nodup (toggles : List Metric) :
    ∀ (l : List Metric), l.Nodup → (applyToggles toggles l).Nodup := by
  induction toggles with
  | nil => intro l h; exact h
  | cons t ts ih =>
      intro l h
      exact ih _ (handleMetricToggle_nodup t l h)

/-- C8: starting from the initial selection, no sequence of toggles ever
produces a duplicated metric identifier; toggling a present metric removes
it (count drops to 0) and toggling an absent metric appends it exactly once
(count becomes 1). -/
theorem c8_toggle_no_duplicates (toggles : List Metric) :
    (applyToggles toggles initialFormData.eval_metrices).Nodup ∧
    (∀ (m : Metric) (l : List Metric), m ∈ l →
      handleMetricToggle m l = l.filter (fun x => x ≠ m)) ∧
    (∀ (m : Metric) (l : List Metric), m ∉ l →
      handleMetricToggle m l = l ++ [m]) ∧
    (∀ (m : Metric) (l : List Metric),
      (handleMetricToggle m l).count m = if m ∈ l then 0 else l.count m + 1) := by
  refine ⟨applyToggles_nodup toggles _ (by decide), ?_, ?_, ?_⟩
  · intro m l hm
    unfold handleMetricToggle
    rw [if_pos hm]
  · intro m l hm
    unfold handleMetricToggle
    rw [if_neg hm]
  · intro m l
    unfold handleMetricToggle
    by_cases hm : m ∈ l
    · rw [if_pos hm, if_pos hm]
      simp [List.count_eq_zero, List.mem_filter]
    · rw [if_neg hm, if_neg hm]
      simp [List.count_append]

/-- Witness for C8: toggling Accuracy off and on from the initial selection
keeps the selection duplicate-free, with Accuracy appearing exactly once
after re-adding it. -/
theorem c8_toggle_witness :
    (applyToggles [.Accuracy, .Accuracy] initialFormData.eval_metrices).Nodup ∧
    (handleMetricToggle .Accuracy [.Hallucination]).count .Accuracy = 1 := by
  have h := c8_toggle_no_duplicates [.Accuracy, .Accuracy]
  refine ⟨h.1, ?_⟩
  have hc := h.2.2.2 .Accuracy [.Hallucination]
  rw [hc, if_neg (by decide)]
  decide

/-! ### App state machine (`App.tsx`) -/

/-- The three `useState` pieces of `App.tsx` that the submit handler
touches. -/
structure AppState where
  results : Option EvaluationResponse
  isLoading : Bool
  error : Option String
  deriving DecidableEq, Repr

/-- The `handleEvaluationSubmit` handler of `App.tsx`: it first sets
loading, clears the error and the results; the awaited evaluate call then
either delivers results or sets the error message; loading is cleared in
the `finally` block.  The outcome of the awaited API call is the explicit
`outcome` argument, and the resulting state does not depend on the prior
state because all three fields are overwritten. -/
def handleEvaluationSubmit (outcome : Except String EvaluationResponse) : AppState :=
  let started : AppState := { results := none, isLoading := true, error := none }
  let finished : AppState :=
    match outcome with
    | .ok r => { started with results := some r }
    | .error e => { started with error := some e }
  { finished with isLoading := false }

/-! ### Claim C6 -/

/-- C6: after a submit, either results are present with a null error, or
the error message is set with null results — never both, never a fabricated
result on failure. -/
theorem c6_results_xor_error (outcome : Except String EvaluationResponse) :
    (∀ r, outcome = .ok r →
      (handleEvaluationSubmit outcome).results = some r ∧
      (handleEvaluationSubmit outcome).error = none) ∧
    (∀ e, outcome = .error e →
      (handleEvaluationSubmit outcome).error = some e ∧
      (handleEvaluationSubmit outcome).results = none) ∧
    ((handleEvaluationSubmit outcome).results.isSome →
      (handleEvaluationSubmit outcome).error = none) ∧
    ((handleEvaluationSubmit outcome).error.isSome →
      (handleEvaluationSubmit outcome).results = none) := by
  cases outcome <;> simp [handleEvaluationSubmit]

/-- Witness for C6: a failed evaluate call sets the error message and
leaves no results to display. -/
theorem c6_results_xor_error_witness :
    (handleEvaluationSubmit (.error "Evaluation failed")).error = some "Evaluation failed" ∧
    (handleEvaluationSubmit (.error "Evaluation failed")).results = none := by
  exact (c6_results_xor_error (.error "Evaluation failed")).2.1 "Evaluation failed" rfl

/-! ### CSV row parsing (`parseCSVRow` in `EvaluationForm.tsx`) -/

/-- The character loop of `parseCSVRow`: `current` is the field being
accumulated and `inQuotes` the quoting state.  A quote inside quotes
followed by another quote is an escaped quote; otherwise a quote toggles
the quoting state; an unquoted comma ends the field (pushed trimmed); any
other character is appended to the field. -/
def parseCSVRowAux (inQuotes : Bool) (current : List Char) : List Char → List String
  | [] => [jsTrim (String.mk current)]
  | c :: rest =>
      if c = '"' then
        if inQuotes then
          if rest.head? = some '"' then
            parseCSVRowAux inQuotes (current ++ ['"']) rest.tail
          else
            parseCSVRowAux false current rest
        else parseCSVRowAux true current rest
      else if c = ',' ∧ inQuotes = false then
        jsTrim (String.mk current) :: parseCSVRowAux false [] rest
      else parseCSVRowAux inQuotes (current ++ [c]) rest
termination_by l => l.length
decreasing_by
  all_goals simp [List.length_tail]
  all_goals omega

/-- The `parseCSVRow` function of `EvaluationForm.tsx`. -/
def parseCSVRow (row : String) : List String :=
  parseCSVRowAux false [] row.data

/-- Doubling of embedded double quotes, the escaping scheme `parseCSVRow`
undoes. -/
def escapeQuotes : List Char → List Char
  | [] => []
  | c :: rest => if c = '"' then '"' :: '"' :: escapeQuotes rest else c :: escapeQuotes rest

/-- A CSV field encoding: the field wrapped in double quotes with embedded
double quotes doubled. -/
def encodeCSVFieldChars (f : List Char) : List Char :=
  '"' :: (escapeQuotes f ++ ['"'])

/-- A CSV row encoding: the encoded fields joined by commas. -/
def encodeCSVRowChars : List (List Char) → List Char
  | [] => []
  | [f] => encodeCSVFieldChars f
  | f :: fs => encodeCSVFieldChars f ++ ',' :: encodeCSVRowChars fs

/-- String-level CSV row encoding. -/
def encodeCSVRow (fields : List String) : String :=
  String.mk (encodeCSVRowChars (fields.map String.data))

theorem parseAux_nil (q : Bool) (cur : List Char) :
    parseCSVRowAux q cur [] = [jsTrim (String.mk cur)] := by
  rw [parseCSVRowAux.eq_def]

theorem parseAux_openQuote (cur rest : List Char) :
    parseCSVRowAux false cur ('"' :: rest) = parseCSVRowAux true cur rest := by
  rw [parseCSVRowAux.eq_def]
  simp

theorem parseAux_escapedQuote (cur rest : List Char) :
    parseCSVRowAux true cur ('"' :: '"' :: rest) = parseCSVRowAux true (cur ++ ['"']) rest := by
  rw [parseCSVRowAux.eq_def]
  simp

theorem parseAux_closeQuote (cur rest : List Char) (h : rest.head? ≠ some '"') :
    parseCSVRowAux true cur ('"' :: rest) = parseCSVRowAux false cur rest := by
  rw [parseCSVRowAux.eq_def]
  simp [h]

theorem parseAux_comma (cur rest : List Char) :
    parseCSVRowAux false cur (',' :: rest) =
      jsTrim (String.mk cur) :: parseCSVRowAux false [] rest := by
  rw [parseCSVRowAux.eq_def]
  simp

theorem parseAux_commaInQuotes (cur rest : List Char) :
    parseCSVRowAux true cur (',' :: rest) = parseCSVRowAux true (cur ++ [',']) rest := by
  rw [parseCSVRowAux.eq_def]
  simp

theorem parseAux_other (q : Bool) (c : Char) (cur rest : List Char)
    (h1 : ¬ c = '"') (h2 : ¬ (c = ',' ∧ q = false)) :
    parseCSVRowAux q cur (c :: rest) = parseCSVRowAux q (cur ++ [c]) rest := by
  rw [parseCSVRowAux.eq_def]
  simp only [if_neg h1, if_neg h2]

theorem escapeQuotes_cons_quote (f : List Char) :
    escapeQuotes ('"' :: f) = '"' :: '"' :: escapeQuotes f := by
  rw [escapeQuotes]
  simp

theorem escapeQuotes_cons (c : Char) (f : List Char) (h : ¬ c = '"') :
    escapeQuotes (c :: f) = c :: escapeQuotes f := by
  rw [escapeQuotes]
  rw [if_neg h]

theorem parseAux_escape_field (f : List Char) :
    ∀ (cur rest : List Char), rest.head? ≠ some '"' →
      parseCSVRowAux true cur (escapeQuotes f ++ '"' :: rest) =
        parseCSVRowAux false (cur ++ f) rest := by
  induction f with
  | nil =>
      intro cur rest h
      simpa using parseAux_closeQuote cur rest h
  | cons c f' ih =>
      intro cur rest h
      by_cases hc : c = '"'
      · subst hc
        rw [escapeQuotes_cons_quote, List.cons_append, List.cons_append,
          parseAux_escapedQuote, ih (cur ++ ['"']) rest h]
        simp
      · rw [escapeQuotes_cons c f' hc, List.cons_append,
          parseAux_other true c cur _ hc (by simp), ih (cur ++ [c]) rest h]
        simp

theorem encodeCSVRowChars_single (f : List Char) :
    encodeCSVRowChars [f] = encodeCSVFieldChars f := by
  rw [encodeCSVRowChars]

theorem encodeCSVRowChars_cons (f f2 : List Char) (fs : List (List Char)) :
    encodeCSVRowChars (f :: f2 :: fs) =
      encodeCSVFieldChars f ++ ',' :: encodeCSVRowChars (f2 :: fs) := by
  rw [encodeCSVRowChars]
  exact fun h => List.noConfusion h

theorem parseAux_encodeRow :
    ∀ (fs : List (List Char)), fs ≠ [] →
      parseCSVRowAux false [] (encodeCSVRowChars fs) =
        fs.map (fun f => jsTrim (String.mk f)) := by
  intro fs
  induction fs with
  | nil => intro h; exact absurd rfl h
  | cons f fs' ih =>
      intro _
      cases fs' with
      | nil =>
          rw [encodeCSVRowChars_single, encodeCSVFieldChars, parseAux_openQuote,
            parseAux_escape_field f [] [] (by simp), parseAux_nil]
          simp
      | cons f2 fs'' =>
          rw [encodeCSVRowChars_cons, encodeCSVFieldChars, List.cons_append,
            List.append_assoc, List.singleton_append, parseAux_openQuote,
            parseAux_escape_field f [] (',' :: encodeCSVRowChars (f2 :: fs'')) (by simp),
            parseAux_comma, ih (List.cons_ne_nil _ _)]
          simp

theorem parseAux_ne_nil :
    ∀ (n : Nat) (l : List Char), l.length ≤ n →
      ∀ (q : Bool) (cur : List Char), parseCSVRowAux q cur l ≠ [] := by
  intro n
  induction n with
  | zero =>
      intro l hl q cur
      have hlnil : l = [] := List.eq_nil_of_length_eq_zero (Nat.le_zero.mp hl)
      subst hlnil
      rw [parseAux_nil]
      simp
  | succ n ih =>
      intro l hl q cur
      cases l with
      | nil => rw [parseAux_nil]; simp
      | cons c rest =>
          have hrest : rest.length ≤ n := by
            simp only [List.length_cons] at hl
            omega
          by_cases hc : c = '"'
          · subst hc
            cases q with
            | false => rw [parseAux_openQuote]; exact ih rest hrest true cur
            | true =>
                cases rest with
                | nil =>
                    rw [parseAux_closeQuote cur [] (by simp)]
                    exact ih [] (by simp) false cur
                | cons c2 rest2 =>
                    by_cases hc2 : c2 = '"'
                    · subst hc2
                      rw [parseAux_escapedQuote]
                      refine ih rest2 ?_ true (cur ++ ['"'])
                      simp only [List.length_cons] at hl
                      omega
                    · rw [parseAux_closeQuote cur (c2 :: rest2) (by simp [hc2])]
                      exact ih (c2 :: rest2) hrest false cur
          · by_cases hcm : c = ',' ∧ q = false
            · obtain ⟨hc1, hq⟩ := hcm
              subst hc1
              subst hq
              rw [parseAux_comma]
              simp
            · rw [parseAux_other q c cur rest hc hcm]
              exact ih rest hrest q (cur ++ [c])

/-! ### Claim C9 -/

/-- C9 counterexample: the empty field list encodes to the empty row, but
`parseCSVRow` on the empty row returns one (empty) field, not the original
zero fields — so the left-inverse property fails for the empty list. -/
theorem c9_empty_fields_counterexample :
    encodeCSVRow [] = "" ∧ parseCSVRow "" = [""] ∧
    parseCSVRow (encodeCSVRow []) ≠ ([] : List String).map jsTrim := by
  have hdata : "".data = ([] : List Char) := rfl
  have h1 : encodeCSVRow [] = "" := rfl
  have h2 : parseCSVRow "" = [""] := by
    unfold parseCSVRow
    rw [hdata, parseAux_nil]
    rfl
  refine ⟨h1, h2, ?_⟩
  rw [h1, h2]
  simp

/-- C9 (amended): `parseCSVRow` is total and returns at least one field on
every input string, and it is a left inverse of the quote-wrapping CSV
encoding for every non-empty field list, returning the original fields with
surrounding whitespace trimmed (the empty field list is the one exception:
its encoding parses back as a single empty field). -/
theorem c9_parse_total_and_left_inverse :
    (∀ (s : String), 1 ≤ (parseCSVRow s).length) ∧
    (∀ (fields : List String), fields ≠ [] →
      parseCSVRow (encodeCSVRow fields) = fields.map jsTrim) := by
  constructor
  · intro s
    have h := parseAux_ne_nil s.data.length s.data le_rfl false []
    unfold parseCSVRow
    cases hp : parseCSVRowAux false [] s.data with
    | nil => exact absurd hp h
    | cons a l => simp
  · intro fields hne
    have h2 := parseAux_encodeRow (fields.map String.data) (by simpa using hne)
    unfold parseCSVRow encodeCSVRow
    rw [show (String.mk (encodeCSVRowChars (fields.map String.data))).data =
      encodeCSVRowChars (fields.map String.data) from rfl]
    rw [h2, List.map_map]
    rfl

/-- Witness for C9: a row with surrounding spaces, an embedded doubled
quote and an embedded comma parses back to the trimmed original fields, and
parsing an arbitrary string yields at least one field. -/
theorem c9_roundtrip_witness :
    parseCSVRow (encodeCSVRow [" a ", "b\"c", "d,e"]) = ["a", "b\"c", "d,e"] ∧
    1 ≤ (parseCSVRow "x,y").length := by
  have h := c9_parse_total_and_left_inverse
  constructor
  · rw [h.2 [" a ", "b\"c", "d,e"] (by simp)]
    decide
  · exact h.1 "x,y"

/-! ### File upload handling (`handleFileUpload` in `EvaluationForm.tsx`) -/

/-- One parsed CSV record: the mapped form fields found in a data row. -/
structure CsvRecord where
  user_query : Option String
  ai_response : Option String
  chunk_1 : Option String
  chunk_2 : Option String
  chunk_3 : Option String
  chunk_4 : Option String
  chunk_5 : Option String
  deriving DecidableEq, Repr

/-- A record with no fields set. -/
def emptyRecord : CsvRecord :=
  { user_query := none, ai_response := none, chunk_1 := none, chunk_2 := none
    chunk_3 := none, chunk_4 := none, chunk_5 := none }

/-- The form fields reachable through `handleInputChange` during file
processing. -/
inductive FormField where
  | user_query
  | ai_response
  | chunk_1
  | chunk_2
  | chunk_3
  | chunk_4
  | chunk_5
  deriving DecidableEq, Repr

/-- Component-level state of `EvaluationForm.tsx`: the form data plus the
per-field error slots, the uploaded file, the parsed CSV records and the
upload spinner flag. -/
structure FormComponentState where
  formData : FormData
  errUserQuery : Option String
  errAiResponse : Option String
  errMetrics : Option String
  errFile : Option String
  uploadedFile : Option FileMeta
  csvRecords : List CsvRecord
  selectedRecordIndex : Nat
  isUploading : Bool
  deriving DecidableEq, Repr

/-- Write one form field of `formData`. -/
def setFormField (fld : FormField) (v : String) (d : FormData) : FormData :=
  match fld with
  | .user_query => { d with user_query := v }
  | .ai_response => { d with ai_response := v }
  | .chunk_1 => { d with chunk_1 := v }
  | .chunk_2 => { d with chunk_2 := v }
  | .chunk_3 => { d with chunk_3 := v }
  | .chunk_4 => { d with chunk_4 := v }
  | .chunk_5 => { d with chunk_5 := v }

/-- The `handleInputChange` handler of `EvaluationForm.tsx`: sets the field
and clears that field's error entry. -/
def handleInputChange (fld : FormField) (v : String) (s : FormComponentState) :
    FormComponentState :=
  let s := { s with formData := setFormField fld v s.formData }
  match fld with
  | .user_query => { s with errUserQuery := none }
  | .ai_response => { s with errAiResponse := none }
  | _ => s

/-- The header names `fieldMapping` in `parseCSVContent` maps to form
fields. -/
def csvFieldNames : List String :=
  ["user_query", "ai_response", "chunk_1", "chunk_2", "chunk_3", "chunk_4", "chunk_5"]

/-- Set the record slot named by a CSV header. -/
def recordSetField (rec : CsvRecord) (header v : String) : CsvRecord :=
  if header = "user_query" then { rec with user_query := some v }
  else if header = "ai_response" then { rec with ai_response := some v }
  else if header = "chunk_1" then { rec with chunk_1 := some v }
  else if header = "chunk_2" then { rec with chunk_2 := some v }
  else if header = "chunk_3" then { rec with chunk_3 := some v }
  else if header = "chunk_4" then { rec with chunk_4 := some v }
  else if header = "chunk_5" then { rec with chunk_5 := some v }
  else rec

/-- JavaScript truthiness of an optional string cell: present and
non-empty. -/
def truthy : Option String → Bool
  | some v => v ≠ ""
  | none => false

/-- Build one record from the header row and one data row, keeping only
mapped headers whose cell is defined and non-empty. -/
def buildRecord (headers row : List String) : CsvRecord :=
  headers.enum.foldl
    (fun rec p =>
      if csvFieldNames.contains p.2 ∧ truthy (row.get? p.1) then
        recordSetField rec p.2 (row.getD p.1 "")
      else rec)
    emptyRecord

/-- The record slots in the order `populateFormWithRecord` visits them. -/
def recordFields (rec : CsvRecord) : List (FormField × Option String) :=
  [(.user_query, rec.user_query), (.ai_response, rec.ai_response),
   (.chunk_1, rec.chunk_1), (.chunk_2, rec.chunk_2), (.chunk_3, rec.chunk_3),
   (.chunk_4, rec.chunk_4), (.chunk_5, rec.chunk_5)]

/-- The `populateFormWithRecord` helper: writes each truthy record value to
its form field, then defaults `user_query` when the record supplied none. -/
def populateFormWithRecord (rec : CsvRecord) (s : FormComponentState) :
    FormComponentState :=
  let s := (recordFields rec).foldl
    (fun st p => if truthy p.2 then handleInputChange p.1 (p.2.getD "") st else st) s
  if truthy rec.user_query then s
  else handleInputChange .user_query "Please evaluate the AI response" s

/-- The `parseCSVContent` helper of `EvaluationForm.tsx`: with fewer than
two lines the thrown error is caught and the raw content falls back into
`ai_response`; otherwise the rows are parsed with `parseCSVRow`, the
records stored, and the form populated from the first record. -/
def parseCSVContent (content : String) (s : FormComponentState) : FormComponentState :=
  let lines := (jsTrim content).splitOn "\n"
  if lines.length < 2 then
    let s := handleInputChange .ai_response content s
    if jsTrim s.formData.user_query = "" then
      handleInputChange .user_query "Please evaluate the content from the uploaded file" s
    else s
  else
    let headers := parseCSVRow (lines.headD "")
    let dataRows := (lines.drop 1).map parseCSVRow
    let records := dataRows.map (buildRecord headers)
    let s := { s with csvRecords := records, selectedRecordIndex := 0 }
    populateFormWithRecord (records.headD emptyRecord) s

/-- The accepted MIME types of `handleFileUpload`. -/
def allowedTypes : List String :=
  ["text/plain", "application/pdf", "text/csv", "application/json"]

/-- The 10 MB upload limit of `handleFileUpload`. -/
def maxFileSize : Nat := 10 * 1024 * 1024

/-- The `handleFileUpload` handler of `EvaluationForm.tsx`.  `content` is
the outcome of the asynchronous `extractFileContent` read (an error for
unreadable files and for PDFs, whose extraction is unimplemented).  A file
with a disallowed MIME type or over the size limit is rejected up front:
only the file error slot changes and the function returns before the file
is stored or any content is processed. -/
def handleFileUpload (file : FileMeta) (content : Except String String)
    (s : FormComponentState) : FormComponentState :=
  if ¬ allowedTypes.contains file.ftype then
    { s with errFile := some "Please upload a valid file (TXT, PDF, CSV, or JSON)" }
  else if file.size > maxFileSize then
    { s with errFile := some "File size must be less than 10MB" }
  else
    let s := { s with isUploading := true, uploadedFile := some file, errFile := none }
    let s :=
      match content with
      | .ok c =>
          if file.ftype = "text/csv" || file.name.endsWith ".csv" then
            parseCSVContent c s
          else
            let s := handleInputChange .ai_response c s
            if jsTrim s.formData.user_query = "" then
              handleInputChange .user_query ("Please evaluate the content from " ++ file.name) s
            else s
      | .error _ =>
          { s with errFile := some "Error processing file. Please try again."
                   uploadedFile := none }
    { s with isUploading := false }

/-! ### Claim C10 -/

/-- C10: a file is processed only when its MIME type is one of text/plain,
application/pdf, text/csv, application/json and its size is at most
10485760 bytes; a file violating either condition is rejected with exactly
a file error — it is not stored as the uploaded file and the form data is
left unchanged. -/
theorem c10_upload_type_and_size_validation (file : FileMeta)
    (content : Except String String) (s : FormComponentState) :
    (¬ allowedTypes.contains file.ftype →
      handleFileUpload file content s =
        { s with errFile := some "Please upload a valid file (TXT, PDF, CSV, or JSON)" }) ∧
    (allowedTypes.contains file.ftype → file.size > maxFileSize →
      handleFileUpload file content s =
        { s with errFile := some "File size must be less than 10MB" }) ∧
    ((¬ allowedTypes.contains file.ftype ∨ file.size > maxFileSize) →
      (handleFileUpload file content s).formData = s.formData ∧
      (handleFileUpload file content s).uploadedFile = s.uploadedFile) := by
  have hbad : ¬ allowedTypes.contains file.ftype →
      handleFileUpload file content s =
        { s with errFile := some "Please upload a valid file (TXT, PDF, CSV, or JSON)" } := by
    intro h
    unfold handleFileUpload
    rw [if_pos h]
  have hbig : allowedTypes.contains file.ftype → file.size > maxFileSize →
      handleFileUpload file content s =
        { s with errFile := some "File size must be less than 10MB" } := by
    intro h1 h2
    unfold handleFileUpload
    rw [if_neg (not_not_intro h1), if_pos h2]
  refine ⟨hbad, hbig, ?_⟩
  intro hviol
  by_cases hct : allowedTypes.contains file.ftype
  · have hsz : file.size > maxFileSize := by
      cases hviol with
      | inl h => exact absurd hct h
      | inr h => exact h
    rw [hbig hct hsz]
    exact ⟨rfl, rfl⟩
  · rw [hbad hct]
    exact ⟨rfl, rfl⟩

/-- The initial component state of `EvaluationForm.tsx`. -/
def initialComponentState : FormComponentState :=
  { formData := initialFormData
    errUserQuery := none
    errAiResponse := none
    errMetrics := none
    errFile := none
    uploadedFile := none
    csvRecords := []
    selectedRecordIndex := 0
    isUploading := false }

/-- Witness for C10: an archive file is rejected for its MIME type and an
11 MB text file for its size; in both cases only the file error changes. -/
theorem c10_upload_validation_witness :
    handleFileUpload { name := "notes.exe", ftype := "application/zip", size := 100 }
        (.ok "x") initialComponentState =
      { initialComponentState with
          errFile := some "Please upload a valid file (TXT, PDF, CSV, or JSON)" } ∧
    handleFileUpload { name := "big.txt", ftype := "text/plain", size := 10485761 }
        (.ok "x") initialComponentState =
      { initialComponentState with errFile := some "File size must be less than 10MB" } := by
  have h1 := c10_upload_type_and_size_validation
    { name := "notes.exe", ftype := "application/zip", size := 100 } (.ok "x") initialComponentState
  have h2 := c10_upload_type_and_size_validation
    { name := "big.txt", ftype := "text/plain", size := 10485761 } (.ok "x") initialComponentState
  exact ⟨h1.1 (by decide), h2.2.1 (by decide) (by decide)⟩
